import Mathlib

/-!
Shallow embedding of the `gcloud-identity-token` crate
(src/auth.rs, src/cache.rs, src/browser.rs, src/config.rs).

Conventions of the embedding:
* `chrono::DateTime<Utc>` timestamps and `i64` second counts become `Int`
  (seconds); `Utc::now() + Duration::seconds(k)` becomes `now + k`.
* Effectful functions take the filesystem / credential-store state and the
  outcomes of the external HTTP calls explicitly and return the new state
  together with a trace of the effects they performed.
* A stored payload is kept structurally: a cell is `absent` (read fails),
  `corrupt` (read succeeds but `serde_json::from_str` fails) or `token t`
  (read succeeds and decodes to `t`); `serde_json` round-tripping of
  `SavedToken` is modelled by writing the record itself into the cell.
* Library routines the source calls (`base64` URL_SAFE_NO_PAD decoding,
  `serde_json` payload parsing, `url::form_urlencoded` query parsing) are
  embedded as executable Lean functions over byte lists (bytes as `Nat`).
-/

/-- `config.rs` `Creds`: OAuth client credentials. -/
structure Creds where
  client_id : String
  client_secret : String
deriving Repr, DecidableEq

/-- `config.rs` `TokenResponse`: provider token-endpoint JSON response.
`refresh_token` is `#[serde(default)]`, hence optional. -/
structure TokenResponse where
  access_token : String
  id_token : String
  refresh_token : Option String
  expires_in : Int
deriving Repr, DecidableEq

/-- `config.rs` `TokenOutput`: caller-facing result (no refresh token). -/
structure TokenOutput where
  access_token : String
  id_token : String
  token_expiry : Int
deriving Repr, DecidableEq

/-- `config.rs` `SavedToken`: the persisted token record (the spec's
PersistedToken). -/
structure SavedToken where
  refresh_token : String
  access_token : String
  id_token : String
  token_expiry : Int
deriving Repr, DecidableEq

/-! ### base64 URL_SAFE_NO_PAD decoding (`base64` crate as used in cache.rs)

The URL-safe alphabet is `A-Z a-z 0-9 - _`; `NO_PAD` rejects `=` padding
(it is simply not in the alphabet), rejects an input length `≡ 1 (mod 4)`,
and rejects nonzero trailing bits in a final partial group. -/

/-- Index of a character in the URL-safe base64 alphabet, if any. -/
def b64Index (c : Char) : Option Nat :=
  if 'A' ≤ c ∧ c ≤ 'Z' then some (c.toNat - 65)
  else if 'a' ≤ c ∧ c ≤ 'z' then some (c.toNat - 97 + 26)
  else if '0' ≤ c ∧ c ≤ '9' then some (c.toNat - 48 + 52)
  else if c = '-' then some 62
  else if c = '_' then some 63
  else none

/-- Turn a list of sextets into bytes, 4 sextets → 3 bytes; a trailing
group of 1 is invalid, trailing groups of 2 / 3 must have their unused
low bits zero. -/
def b64Bytes : List Nat → Option (List Nat)
  | [] => some []
  | [_] => none
  | [a, b] => if b % 16 = 0 then some [a * 4 + b / 16] else none
  | [a, b, c] =>
      if c % 4 = 0 then some [a * 4 + b / 16, b % 16 * 16 + c / 4] else none
  | a :: b :: c :: d :: rest =>
      (b64Bytes rest).map fun t =>
        (a * 4 + b / 16) :: (b % 16 * 16 + c / 4) :: (c % 4 * 64 + d) :: t

/-- Decode a base64url (no padding) string to bytes; `none` on any
character outside the alphabet or an invalid final group. -/
def base64urlDecode (s : String) : Option (List Nat) :=
  (s.data.mapM b64Index).bind b64Bytes

/-- Split a character list on a separator; Rust `str::split(sep)`
semantics: `n` separators yield `n + 1` pieces, empty pieces included. -/
def splitCharList (sep : Char) : List Char → List (List Char)
  | [] => [[]]
  | c :: rest =>
      if c = sep then [] :: splitCharList sep rest
      else
        match splitCharList sep rest with
        | g :: gs => (c :: g) :: gs
        | [] => [[c]]

/-- Rust `str::split(sep).collect::<Vec<_>>()` on a string. -/
def splitChar (sep : Char) (s : String) : List String :=
  (splitCharList sep s.data).map String.mk

/-! ### JSON parsing (`serde_json::from_slice::<IdTokenClaims>` in cache.rs)

A JSON value parser over bytes, faithful to `serde_json`: RFC 8259 syntax,
strings must be valid UTF-8 with the usual escapes (including surrogate
pairs), numbers are validated syntactically (their value is irrelevant for
`IdTokenClaims`, where non-`email` fields are ignored). -/

/-- JSON values; numeric values are not retained (only syntax-checked). -/
inductive Json where
  | null
  | bool (b : Bool)
  | num
  | str (s : String)
  | arr (elems : List Json)
  | obj (fields : List (String × Json))

/-- Drop leading JSON whitespace (space, tab, LF, CR). -/
def skipWs : List Nat → List Nat
  | b :: rest =>
      if b = 32 ∨ b = 9 ∨ b = 10 ∨ b = 13 then skipWs rest else b :: rest
  | [] => []

/-- Value of an ASCII hex digit byte. -/
def hexDigitVal (b : Nat) : Option Nat :=
  if 48 ≤ b ∧ b ≤ 57 then some (b - 48)
  else if 65 ≤ b ∧ b ≤ 70 then some (b - 55)
  else if 97 ≤ b ∧ b ≤ 102 then some (b - 87)
  else none

/-- Parse the body of a JSON string (after the opening quote) into
characters, decoding UTF-8 and escape sequences; returns the characters
and the bytes after the closing quote. -/
def parseStringBody : Nat → List Nat → Option (List Char × List Nat)
  | 0, _ => none
  | fuel + 1, bs =>
    let push : Char → List Nat → Option (List Char × List Nat) := fun c r =>
      (parseStringBody fuel r).map fun p => (c :: p.1, p.2)
    match bs with
    | [] => none
    | 34 :: rest => some ([], rest)
    | 92 :: esc =>
      match esc with
      | 34 :: r => push '"' r
      | 92 :: r => push '\\' r
      | 47 :: r => push '/' r
      | 98 :: r => push (Char.ofNat 8) r
      | 102 :: r => push (Char.ofNat 12) r
      | 110 :: r => push (Char.ofNat 10) r
      | 114 :: r => push (Char.ofNat 13) r
      | 116 :: r => push (Char.ofNat 9) r
      | 117 :: h1 :: h2 :: h3 :: h4 :: r =>
        (match hexDigitVal h1, hexDigitVal h2, hexDigitVal h3, hexDigitVal h4 with
         | some a, some b, some c, some d =>
           let n := a * 4096 + b * 256 + c * 16 + d
           if 55296 ≤ n ∧ n ≤ 56319 then
             match r with
             | 92 :: 117 :: g1 :: g2 :: g3 :: g4 :: r2 =>
               (match hexDigitVal g1, hexDigitVal g2, hexDigitVal g3,
                      hexDigitVal g4 with
                | some a2, some b2, some c2, some d2 =>
                  let m := a2 * 4096 + b2 * 256 + c2 * 16 + d2
                  if 56320 ≤ m ∧ m ≤ 57343 then
                    push (Char.ofNat (65536 + (n - 55296) * 1024 + (m - 56320))) r2
                  else none
                | _, _, _, _ => none)
             | _ => none
           else if 56320 ≤ n ∧ n ≤ 57343 then none
           else push (Char.ofNat n) r
         | _, _, _, _ => none)
      | _ => none
    | b :: rest =>
      if b < 32 then none
      else if b < 128 then push (Char.ofNat b) rest
      else if 194 ≤ b ∧ b ≤ 223 then
        match rest with
        | c1 :: r =>
          if 128 ≤ c1 ∧ c1 ≤ 191 then
            push (Char.ofNat ((b - 192) * 64 + (c1 - 128))) r
          else none
        | [] => none
      else if 224 ≤ b ∧ b ≤ 239 then
        match rest with
        | c1 :: c2 :: r =>
          if (if b = 224 then 160 else 128) ≤ c1 ∧
             c1 ≤ (if b = 237 then 159 else 191) ∧
             128 ≤ c2 ∧ c2 ≤ 191 then
            push (Char.ofNat ((b - 224) * 4096 + (c1 - 128) * 64 + (c2 - 128))) r
          else none
        | _ => none
      else if 240 ≤ b ∧ b ≤ 244 then
        match rest with
        | c1 :: c2 :: c3 :: r =>
          if (if b = 240 then 144 else 128) ≤ c1 ∧
             c1 ≤ (if b = 244 then 143 else 191) ∧
             128 ≤ c2 ∧ c2 ≤ 191 ∧ 128 ≤ c3 ∧ c3 ≤ 191 then
            push (Char.ofNat
              ((b - 240) * 262144 + (c1 - 128) * 4096 + (c2 - 128) * 64 + (c3 - 128))) r
          else none
        | _ => none
      else none

/-- Consume leading ASCII digits; return how many and the rest. -/
def takeDigits : List Nat → Nat × List Nat
  | b :: rest =>
      if 48 ≤ b ∧ b ≤ 57 then
        let p := takeDigits rest
        (p.1 + 1, p.2)
      else (0, b :: rest)
  | [] => (0, [])

/-- Parse an optional fraction part `.digits+`. -/
def parseFracPart (bs : List Nat) : Option (List Nat) :=
  match bs with
  | 46 :: r =>
      let p := takeDigits r
      if p.1 = 0 then none else some p.2
  | _ => some bs

/-- Parse an optional exponent part `(e|E)(+|-)?digits+`. -/
def parseExpPart (bs : List Nat) : Option (List Nat) :=
  match bs with
  | b :: r =>
      if b = 101 ∨ b = 69 then
        let r1 := match r with
          | s :: r2 => if s = 43 ∨ s = 45 then r2 else s :: r2
          | [] => []
        let p := takeDigits r1
        if p.1 = 0 then none else some p.2
      else some (b :: r)
  | [] => some []

/-- Syntax-check a JSON number `-?(0|[1-9][0-9]*)(frac)?(exp)?`; return
the remaining bytes. -/
def parseNumberBody (bs : List Nat) : Option (List Nat) := do
  let bs1 := match bs with | 45 :: r => r | _ => bs
  let bs2 ← match bs1 with
    | 48 :: r => some r
    | b :: r => if 49 ≤ b ∧ b ≤ 57 then some (takeDigits r).2 else none
    | [] => none
  let bs3 ← parseFracPart bs2
  parseExpPart bs3

mutual

/-- Parse one JSON value (leading whitespace allowed); fuel-bounded. -/
def parseValue : Nat → List Nat → Option (Json × List Nat)
  | 0, _ => none
  | fuel + 1, bs =>
    match skipWs bs with
    | [] => none
    | 110 :: rest =>
        (match rest with
         | 117 :: 108 :: 108 :: r => some (.null, r)
         | _ => none)
    | 116 :: rest =>
        (match rest with
         | 114 :: 117 :: 101 :: r => some (.bool true, r)
         | _ => none)
    | 102 :: rest =>
        (match rest with
         | 97 :: 108 :: 115 :: 101 :: r => some (.bool false, r)
         | _ => none)
    | 34 :: rest =>
        (parseStringBody (rest.length + 1) rest).map fun p =>
          (.str (String.mk p.1), p.2)
    | 91 :: rest =>
        (match skipWs rest with
         | 93 :: r => some (.arr [], r)
         | r => (parseArrayRest fuel r).map fun p => (.arr p.1, p.2))
    | 123 :: rest =>
        (match skipWs rest with
         | 125 :: r => some (.obj [], r)
         | r => (parseObjRest fuel r).map fun p => (.obj p.1, p.2))
    | b :: rest =>
        if b = 45 ∨ (48 ≤ b ∧ b ≤ 57) then
          (parseNumberBody (b :: rest)).map fun r => (.num, r)
        else none

/-- Parse the elements of a non-empty JSON array up to `]`. -/
def parseArrayRest : Nat → List Nat → Option (List Json × List Nat)
  | 0, _ => none
  | fuel + 1, bs => do
      let (v, r) ← parseValue fuel bs
      match skipWs r with
      | 44 :: r2 => do
          let (vs, r3) ← parseArrayRest fuel r2
          pure (v :: vs, r3)
      | 93 :: r2 => pure ([v], r2)
      | _ => none

/-- Parse the members of a non-empty JSON object up to the closing brace. -/
def parseObjRest : Nat → List Nat → Option (List (String × Json) × List Nat)
  | 0, _ => none
  | fuel + 1, bs =>
      match skipWs bs with
      | 34 :: r => do
          let (cs, r1) ← parseStringBody (r.length + 1) r
          match skipWs r1 with
          | 58 :: r2 => do
              let (v, r3) ← parseValue fuel r2
              match skipWs r3 with
              | 44 :: r4 => do
                  let (fs, r5) ← parseObjRest fuel r4
                  pure ((String.mk cs, v) :: fs, r5)
              | 125 :: r4 => pure ([(String.mk cs, v)], r4)
              | _ => none
          | _ => none
      | _ => none

end

/-- Parse a complete JSON document: one value, then only whitespace. -/
def parseJson (bs : List Nat) : Option Json := do
  let (v, rest) ← parseValue (bs.length * 2 + 4) bs
  match skipWs rest with
  | [] => pure v
  | _ => none

/-- Deserialize `IdTokenClaims \x7b email: String \x7d` as serde does:
an object needs exactly one `email` member whose value is a string (a
duplicate, a missing member, or a non-string value is an error; other
members are ignored); serde_json also accepts a struct positionally from
a one-element array. -/
def jsonEmail (bs : List Nat) : Option String :=
  match parseJson bs with
  | some (.obj fields) =>
      (match fields.filter (fun f => f.1 == "email") with
       | [(_, .str s)] => some s
       | _ => none)
  | some (.arr [.str s]) => some s
  | _ => none

/-- `cache.rs` `extract_email_from_id_token`: split the JWT on `.`,
require exactly 3 segments, base64url-decode the middle one and read the
`email` claim; `none` on any failure. -/
def extract_email_from_id_token (id_token : String) : Option String :=
  let parts := splitChar '.' id_token
  if parts.length ≠ 3 then none
  else (base64urlDecode (parts.getD 1 "")).bind jsonEmail

/-! ### The Secure Token Store state (cache.rs)

State touched by `load_cached_token`, `save_token` and `delete_token`:
the file at the `GCLOUD_IDENTITY_TOKEN_PATH` override path, the email
hint side-file at `email_hint_path()`, and the platform keyring entries
under the fixed service name. -/

/-- One stored payload slot: reading can fail (`absent`), succeed but not
deserialize to a `SavedToken` (`corrupt`), or yield a record (`token`). -/
inductive StoreCell where
  | absent
  | corrupt
  | token (t : SavedToken)
deriving Repr, DecidableEq

/-- Keyring lookup by user key; a missing entry reads as `absent`. -/
def kvLookup : List (String × StoreCell) → String → StoreCell
  | [], _ => .absent
  | (k, v) :: rest, user => if k = user then v else kvLookup rest user

/-- Keyring write: replace the entry for `user` (insert if missing). -/
def kvInsert : List (String × StoreCell) → String → StoreCell →
    List (String × StoreCell)
  | [], user, v => [(user, v)]
  | (k, w) :: rest, user, v =>
      if k = user then (k, v) :: rest else (k, w) :: kvInsert rest user v

/-- Keyring entry removal (`delete_password`). -/
def kvRemove : List (String × StoreCell) → String → List (String × StoreCell)
  | [], _ => []
  | (k, w) :: rest, user =>
      if k = user then kvRemove rest user else (k, w) :: kvRemove rest user

/-- The external state the cache module reads and writes. -/
structure Store where
  /-- Content of the file at the override path. -/
  file : StoreCell
  /-- Content of the email hint side-file, if it is readable. -/
  hintFile : Option String
  /-- Platform credential-store entries, keyed by user. -/
  keyring : List (String × StoreCell)
deriving Repr, DecidableEq

/-- Process environment: `GCLOUD_IDENTITY_TOKEN_PATH`, when set. -/
structure Env where
  tokenPathVar : Option String
deriving Repr, DecidableEq

/-- Observable effects of a call, in the order they are performed. -/
inductive Event where
  /-- POST of a `grant_type=refresh_token` exchange. -/
  | refreshCall
  /-- Browser launch plus blocking redirect capture. -/
  | browserLogin
  /-- POST of a `grant_type=authorization_code` exchange. -/
  | codeExchangeCall
  /-- Write of the email hint side-file. -/
  | writeHintFile (user : String)
  /-- Write of the token payload (override file or keyring entry). -/
  | writeStore (t : SavedToken)
deriving Repr, DecidableEq

/-- Errors surfaced by the embedded operations. -/
inductive AuthError where
  /-- Provider HTTP/parse failure during an exchange. -/
  | exchangeFailure
  /-- The captured redirect carried no `code` parameter. -/
  | captureFailure
  /-- `delete_password` failed (no entry to delete). -/
  | storeFailure
deriving Repr, DecidableEq

/-- `cache.rs` `load_cached_token`: with the override path set, read and
decode the file (any failure is `none`); otherwise read the hint file
(defaulting to `"default"`) and read/decode the keyring entry under that
user. -/
def load_cached_token (env : Env) (st : Store) : Option SavedToken :=
  match env.tokenPathVar with
  | some _ =>
      (match st.file with
       | .token t => some t
       | _ => none)
  | none =>
      let user := st.hintFile.getD "default"
      match kvLookup st.keyring user with
      | .token t => some t
      | _ => none

/-- `cache.rs` `save_token`, keyring branch: the user key derived from
the identity token, with the `"default"` fallback. -/
def save_user (id_token : String) : String :=
  (extract_email_from_id_token id_token).getD "default"

/-- `cache.rs` `save_token`: with the override path set, write the record
to the file (creating parent directories) and return; otherwise derive
the user key from the identity token, write the hint file, then write
the keyring entry under that user. File and keyring writes are modelled
as succeeding. -/
def save_token (env : Env) (st : Store) (token : SavedToken) :
    Store × List Event :=
  match env.tokenPathVar with
  | some _ => ({ st with file := .token token }, [.writeStore token])
  | none =>
      let user := save_user token.id_token
      ({ st with
          hintFile := some user,
          keyring := kvInsert st.keyring user (.token token) },
       [.writeHintFile user, .writeStore token])

/-- `cache.rs` `delete_token`: read the hint file (defaulting to
`"default"`) and delete the keyring entry under that user; the source
consults no override path here, so `env` is unused. `delete_password`
fails when there is no entry. -/
def delete_token (env : Env) (st : Store) : Except AuthError Store :=
  let user := st.hintFile.getD "default"
  match kvLookup st.keyring user with
  | .absent => .error .storeFailure
  | _ => .ok { st with keyring := kvRemove st.keyring user }

/-! ### Redirect capture (browser.rs)

`capture_auth_code` serves one request; we embed the query handling:
`request.url().split('?').nth(1)`, `url::form_urlencoded::parse` into a
`HashMap`, and the lookup of `code`. The confirmation response is sent
only after the code has been extracted. -/

/-- UTF-8 encoding of one character. -/
def utf8EncodeChar (c : Char) : List Nat :=
  let n := c.toNat
  if n < 128 then [n]
  else if n < 2048 then [192 + n / 64, 128 + n % 64]
  else if n < 65536 then [224 + n / 4096, 128 + n / 64 % 64, 128 + n % 64]
  else [240 + n / 262144, 128 + n / 4096 % 64, 128 + n / 64 % 64, 128 + n % 64]

/-- UTF-8 encoding of a string (`str::as_bytes`). -/
def utf8Encode (s : String) : List Nat :=
  s.data.flatMap utf8EncodeChar

/-- Lossy UTF-8 decoding (`String::from_utf8_lossy`): an invalid byte
is replaced by U+FFFD and skipped; fuel-bounded (one unit per byte
consumed suffices). -/
def utf8DecodeLossy (fuel : Nat) (bs : List Nat) : List Char :=
  match fuel, bs with
  | 0, _ => []
  | _, [] => []
  | fuel + 1, b :: rest =>
      if b < 128 then Char.ofNat b :: utf8DecodeLossy fuel rest
      else if 194 ≤ b ∧ b ≤ 223 then
        match rest with
        | c1 :: r =>
            if 128 ≤ c1 ∧ c1 ≤ 191 then
              Char.ofNat ((b - 192) * 64 + (c1 - 128)) :: utf8DecodeLossy fuel r
            else Char.ofNat 65533 :: utf8DecodeLossy fuel rest
        | [] => [Char.ofNat 65533]
      else if 224 ≤ b ∧ b ≤ 239 then
        match rest with
        | c1 :: c2 :: r =>
            if (if b = 224 then 160 else 128) ≤ c1 ∧
               c1 ≤ (if b = 237 then 159 else 191) ∧
               128 ≤ c2 ∧ c2 ≤ 191 then
              Char.ofNat ((b - 224) * 4096 + (c1 - 128) * 64 + (c2 - 128)) ::
                utf8DecodeLossy fuel r
            else Char.ofNat 65533 :: utf8DecodeLossy fuel rest
        | _ => Char.ofNat 65533 :: utf8DecodeLossy fuel rest
      else if 240 ≤ b ∧ b ≤ 244 then
        match rest with
        | c1 :: c2 :: c3 :: r =>
            if (if b = 240 then 144 else 128) ≤ c1 ∧
               c1 ≤ (if b = 244 then 143 else 191) ∧
               128 ≤ c2 ∧ c2 ≤ 191 ∧ 128 ≤ c3 ∧ c3 ≤ 191 then
              Char.ofNat
                  ((b - 240) * 262144 + (c1 - 128) * 4096 + (c2 - 128) * 64 +
                    (c3 - 128)) :: utf8DecodeLossy fuel r
            else Char.ofNat 65533 :: utf8DecodeLossy fuel rest
        | _ => Char.ofNat 65533 :: utf8DecodeLossy fuel rest
      else Char.ofNat 65533 :: utf8DecodeLossy fuel rest

/-- Percent-decoding: `%XY` with hex digits becomes one byte; anything
else passes through unchanged. -/
def percentDecode : List Nat → List Nat
  | 37 :: h1 :: h2 :: rest =>
      (match hexDigitVal h1, hexDigitVal h2 with
       | some a, some b => (a * 16 + b) :: percentDecode rest
       | _, _ => 37 :: percentDecode (h1 :: h2 :: rest))
  | b :: rest => b :: percentDecode rest
  | [] => []

/-- `form_urlencoded`'s per-component decode: `+` to space, then
percent-decode, then lossy UTF-8. -/
def formDecode (bs : List Nat) : String :=
  let ds := percentDecode (bs.map fun b => if b = 43 then 32 else b)
  String.mk (utf8DecodeLossy (ds.length + 1) ds)

/-- Split at the first occurrence of byte `sep` (`splitn(2, ..)`): the
piece before it and, if found, the remainder after it. -/
def splitFirst (sep : Nat) : List Nat → List Nat × Option (List Nat)
  | [] => ([], none)
  | b :: rest =>
      if b = sep then ([], some rest)
      else
        let p := splitFirst sep rest
        (b :: p.1, p.2)

/-- `url::form_urlencoded::parse`: split the input on `&`, skip empty
pieces, split each piece at the first `=` (missing value reads as empty),
and decode both sides. -/
def form_urlencoded_parse (fuel : Nat) (bs : List Nat) :
    List (String × String) :=
  match fuel with
  | 0 => []
  | fuel + 1 =>
      match bs with
      | [] => []
      | _ =>
          let p := splitFirst 38 bs
          let rest := match p.2 with
            | some r => form_urlencoded_parse fuel r
            | none => []
          match p.1 with
          | [] => rest
          | piece =>
              let q := splitFirst 61 piece
              (formDecode q.1, formDecode (q.2.getD [])) :: rest

/-- `HashMap` built by `collect` then `get`: the last pair wins for a
duplicated key. -/
def hashMapGet (pairs : List (String × String)) (key : String) :
    Option String :=
  match pairs with
  | [] => none
  | (k, v) :: rest =>
      match hashMapGet rest key with
      | some w => some w
      | none => if k = key then some v else none

/-- `browser.rs` `capture_auth_code` on the one captured request, given
its raw URL (path plus query): take the piece after the first `?`
(`split('?').nth(1)`, empty when absent), parse it form-urlencoded into a
map, and look up `code`. The `Bool` records whether the confirmation
response was sent back to the browser — it is sent only on the success
path, after the code has been extracted. -/
def request_params (requestUrl : String) : List (String × String) :=
  let query := (splitChar '?' requestUrl).getD 1 ""
  let qbytes := utf8Encode query
  form_urlencoded_parse (qbytes.length + 1) qbytes

/-- `browser.rs` `capture_auth_code`, continued: look up `code` in the
parsed parameters; on a missing parameter the error is returned before
any response is written. -/
def capture_auth_code (requestUrl : String) : Except AuthError String × Bool :=
  match hashMapGet (request_params requestUrl) "code" with
  | none => (.error .captureFailure, false)
  | some code => (.ok code, true)

/-! ### Token lifecycle (auth.rs)

The two provider HTTP calls and the captured redirect request are
supplied by an `Oracle`: a `none` response stands for any HTTP/JSON
failure of that call (surfaced by `?` in the source). -/

/-- Outcomes of the external interactions during one `get_token` call. -/
structure Oracle where
  /-- `Utc::now()`, as seconds. -/
  now : Int
  /-- Raw URL (path plus query) of the one captured redirect request. -/
  requestUrl : String
  /-- Response of the `grant_type=refresh_token` POST, if it succeeds. -/
  refreshResponse : Option TokenResponse
  /-- Response of the `grant_type=authorization_code` POST, if it succeeds. -/
  codeResponse : Option TokenResponse
deriving Repr, DecidableEq

/-- `auth.rs` `token_output_from_saved`. -/
def token_output_from_saved (saved : SavedToken) : TokenOutput :=
  { access_token := saved.access_token
    id_token := saved.id_token
    token_expiry := saved.token_expiry }

/-- `auth.rs` `refresh_token`: POST the refresh exchange; on failure
propagate the error, on success build the updated record with expiry
`now + expires_in` and the response's refresh token (or the saved one if
the response carries none), save it, and return it as output. -/
def refresh_token (creds : Creds) (saved : SavedToken) (env : Env)
    (o : Oracle) (st : Store) :
    Except AuthError TokenOutput × Store × List Event :=
  match o.refreshResponse with
  | none => (.error .exchangeFailure, st, [.refreshCall])
  | some res =>
      let expires_at := o.now + res.expires_in
      let refresh_token := res.refresh_token.getD saved.refresh_token
      let updated : SavedToken :=
        { refresh_token := refresh_token
          access_token := res.access_token
          id_token := res.id_token
          token_expiry := expires_at }
      let p := save_token env st updated
      (.ok (token_output_from_saved updated), p.1, .refreshCall :: p.2)

/-- `auth.rs` `perform_login`: open the browser and capture one redirect
request; on a captured code POST the code exchange; on its success,
persist a new record only when the response carries a refresh token, and
return the response's tokens with expiry `now + expires_in`. -/
def perform_login (creds : Creds) (env : Env) (o : Oracle) (st : Store) :
    Except AuthError TokenOutput × Store × List Event :=
  match (capture_auth_code o.requestUrl).1 with
  | .error e => (.error e, st, [.browserLogin])
  | .ok _code =>
      match o.codeResponse with
      | none => (.error .exchangeFailure, st, [.browserLogin, .codeExchangeCall])
      | some res =>
          let expires_at := o.now + res.expires_in
          let out : TokenOutput :=
            { access_token := res.access_token
              id_token := res.id_token
              token_expiry := expires_at }
          match res.refresh_token with
          | some rt =>
              let saved : SavedToken :=
                { refresh_token := rt
                  access_token := res.access_token
                  id_token := res.id_token
                  token_expiry := expires_at }
              let p := save_token env st saved
              (.ok out, p.1, .browserLogin :: .codeExchangeCall :: p.2)
          | none => (.ok out, st, [.browserLogin, .codeExchangeCall])

/-- `auth.rs` `get_token`: cache hit when the saved expiry is strictly
later than `now + 60s`; otherwise refresh; with no usable cache, full
login. -/
def get_token (creds : Creds) (env : Env) (o : Oracle) (st : Store) :
    Except AuthError TokenOutput × Store × List Event :=
  match load_cached_token env st with
  | some saved =>
      if o.now + 60 < saved.token_expiry then
        (.ok (token_output_from_saved saved), st, [])
      else
        refresh_token creds saved env o st
  | none => perform_login creds env o st

/-! ### Helper lemmas -/

/-- A keyring read after a write to the same key sees the written value. -/
theorem kvLookup_kvInsert (l : List (String × StoreCell)) (k : String)
    (v : StoreCell) : kvLookup (kvInsert l k v) k = v := by
  induction l with
  | nil => simp [kvInsert, kvLookup]
  | cons hd tl ih =>
      obtain ⟨k1, w⟩ := hd
      by_cases h : k1 = k
      · simp [kvInsert, kvLookup, h]
      · simp [kvInsert, kvLookup, h, ih]

/-- A load straight after a save returns the saved record, on either
backend. -/
theorem load_after_save (env : Env) (st : Store) (t : SavedToken) :
    load_cached_token env (save_token env st t).1 = some t := by
  cases henv : env.tokenPathVar with
  | some p => simp [save_token, load_cached_token, henv]
  | none => simp [save_token, load_cached_token, henv, kvLookup_kvInsert]

/-- Every event emitted by `save_token` is a hint write or a payload
write. -/
theorem save_token_events (env : Env) (st : Store) (t : SavedToken)
    (e : Event) (he : e ∈ (save_token env st t).2) :
    e = Event.writeHintFile (save_user t.id_token) ∨ e = Event.writeStore t := by
  cases henv : env.tokenPathVar with
  | some p =>
      simp [save_token, henv] at he
      exact Or.inr he
  | none =>
      simp [save_token, henv] at he
      tauto

/-! ### Claims -/

/-- C1: for every cached record whose expiry is strictly later than
`now + 60s`, `get_token` returns exactly that record's access token, id
token and expiry, performs no network call and no store write (the trace
is empty and the store state is returned unchanged). -/
theorem get_token_fresh_cache_hit (creds : Creds) (env : Env) (o : Oracle)
    (st : Store) (saved : SavedToken)
    (hload : load_cached_token env st = some saved)
    (hfresh : o.now + 60 < saved.token_expiry) :
    get_token creds env o st =
      (.ok ⟨saved.access_token, saved.id_token, saved.token_expiry⟩, st, []) := by
  simp [get_token, hload, hfresh, token_output_from_saved]

/-- Witness for C1 at a concrete fresh cache record. -/
theorem get_token_fresh_cache_hit_witness :
    get_token ⟨"id", "secret"⟩ ⟨some "/tmp/token.json"⟩ ⟨0, "/", none, none⟩
        ⟨.token ⟨"r1", "a1", "i1", 1000⟩, none, []⟩ =
      (.ok ⟨"a1", "i1", 1000⟩, ⟨.token ⟨"r1", "a1", "i1", 1000⟩, none, []⟩, []) :=
  get_token_fresh_cache_hit ⟨"id", "secret"⟩ ⟨some "/tmp/token.json"⟩
    ⟨0, "/", none, none⟩ ⟨.token ⟨"r1", "a1", "i1", 1000⟩, none, []⟩
    ⟨"r1", "a1", "i1", 1000⟩ (by rfl) (by decide)

/-- C2: for every cached record with expiry at or before `now + 60s`,
`get_token` performs exactly one refresh-exchange call and never a full
login; on refresh success the new record (expiry `now + expires_in`) is
written to the store and returned as the output. -/
theorem get_token_expired_refresh_once (creds : Creds) (env : Env)
    (o : Oracle) (st : Store) (saved : SavedToken)
    (hload : load_cached_token env st = some saved)
    (hexp : saved.token_expiry ≤ o.now + 60) :
    ((get_token creds env o st).2.2.count .refreshCall = 1 ∧
     Event.browserLogin ∉ (get_token creds env o st).2.2 ∧
     Event.codeExchangeCall ∉ (get_token creds env o st).2.2) ∧
    (∀ res : TokenResponse, o.refreshResponse = some res →
      (get_token creds env o st).1 =
        .ok ⟨res.access_token, res.id_token, o.now + res.expires_in⟩ ∧
      load_cached_token env (get_token creds env o st).2.1 =
        some ⟨res.refresh_token.getD saved.refresh_token, res.access_token,
              res.id_token, o.now + res.expires_in⟩) := by
  have hlt : ¬ (o.now + 60 < saved.token_expiry) := by omega
  have hgt : get_token creds env o st = refresh_token creds saved env o st := by
    simp [get_token, hload, hlt]
  rw [hgt]
  cases hres : o.refreshResponse with
  | none =>
      refine ⟨⟨?_, ?_, ?_⟩, ?_⟩
      · simp [refresh_token, hres]
      · simp [refresh_token, hres]
      · simp [refresh_token, hres]
      · intro res h
        exact absurd h (by simp)
  | some res =>
      have hred : refresh_token creds saved env o st =
          (.ok (token_output_from_saved
                  ⟨res.refresh_token.getD saved.refresh_token, res.access_token,
                   res.id_token, o.now + res.expires_in⟩),
           (save_token env st
              ⟨res.refresh_token.getD saved.refresh_token, res.access_token,
               res.id_token, o.now + res.expires_in⟩).1,
           .refreshCall ::
             (save_token env st
                ⟨res.refresh_token.getD saved.refresh_token, res.access_token,
                 res.id_token, o.now + res.expires_in⟩).2) := by
        simp [refresh_token, hres]
      rw [hred]
      refine ⟨⟨?_, ?_, ?_⟩, ?_⟩
      · rw [List.count_cons_self]
        have : (save_token env st
            ⟨res.refresh_token.getD saved.refresh_token, res.access_token,
             res.id_token, o.now + res.expires_in⟩).2.count Event.refreshCall = 0 := by
          rw [List.count_eq_zero]
          intro hmem
          rcases save_token_events _ _ _ _ hmem with h | h <;> simp_all
        omega
      · intro hmem
        rcases List.mem_cons.mp hmem with h | h
        · exact absurd h (by simp)
        · rcases save_token_events _ _ _ _ h with h2 | h2 <;> simp_all
      · intro hmem
        rcases List.mem_cons.mp hmem with h | h
        · exact absurd h (by simp)
        · rcases save_token_events _ _ _ _ h with h2 | h2 <;> simp_all
      · intro res2 h2
        injection h2 with h3
        subst h3
        exact ⟨by simp [token_output_from_saved], load_after_save env st _⟩

/-- Witness for C2 at a concrete expired record and a concrete
successful refresh response. -/
theorem get_token_expired_refresh_once_witness :
    ((get_token ⟨"id", "secret"⟩ ⟨some "/tmp/token.json"⟩
        ⟨100, "/", some ⟨"a2", "i2", none, 3600⟩, none⟩
        ⟨.token ⟨"r1", "a1", "i1", 90⟩, none, []⟩).2.2.count .refreshCall = 1 ∧
     Event.browserLogin ∉ (get_token ⟨"id", "secret"⟩ ⟨some "/tmp/token.json"⟩
        ⟨100, "/", some ⟨"a2", "i2", none, 3600⟩, none⟩
        ⟨.token ⟨"r1", "a1", "i1", 90⟩, none, []⟩).2.2 ∧
     Event.codeExchangeCall ∉ (get_token ⟨"id", "secret"⟩ ⟨some "/tmp/token.json"⟩
        ⟨100, "/", some ⟨"a2", "i2", none, 3600⟩, none⟩
        ⟨.token ⟨"r1", "a1", "i1", 90⟩, none, []⟩).2.2) ∧
    (∀ res : TokenResponse,
      (Oracle.mk 100 "/" (some ⟨"a2", "i2", none, 3600⟩) none).refreshResponse =
        some res →
      (get_token ⟨"id", "secret"⟩ ⟨some "/tmp/token.json"⟩
          ⟨100, "/", some ⟨"a2", "i2", none, 3600⟩, none⟩
          ⟨.token ⟨"r1", "a1", "i1", 90⟩, none, []⟩).1 =
        .ok ⟨res.access_token, res.id_token, 100 + res.expires_in⟩ ∧
      load_cached_token ⟨some "/tmp/token.json"⟩
          (get_token ⟨"id", "secret"⟩ ⟨some "/tmp/token.json"⟩
            ⟨100, "/", some ⟨"a2", "i2", none, 3600⟩, none⟩
            ⟨.token ⟨"r1", "a1", "i1", 90⟩, none, []⟩).2.1 =
        some ⟨res.refresh_token.getD "r1", res.access_token, res.id_token,
              100 + res.expires_in⟩) :=
  get_token_expired_refresh_once ⟨"id", "secret"⟩ ⟨some "/tmp/token.json"⟩
    ⟨100, "/", some ⟨"a2", "i2", none, 3600⟩, none⟩
    ⟨.token ⟨"r1", "a1", "i1", 90⟩, none, []⟩ ⟨"r1", "a1", "i1", 90⟩
    (by rfl) (by decide)

/-- C3: on a successful refresh exchange, the record written to the
store keeps the previously stored refresh token when the response omits
one, and carries the response's refresh token when it supplies one (the
written record is what a subsequent load returns). -/
theorem refresh_token_rotation (creds : Creds) (saved : SavedToken)
    (env : Env) (o : Oracle) (st : Store) (res : TokenResponse)
    (hres : o.refreshResponse = some res) :
    (res.refresh_token = none →
      load_cached_token env (refresh_token creds saved env o st).2.1 =
        some ⟨saved.refresh_token, res.access_token, res.id_token,
              o.now + res.expires_in⟩) ∧
    (∀ nrt : String, res.refresh_token = some nrt →
      load_cached_token env (refresh_token creds saved env o st).2.1 =
        some ⟨nrt, res.access_token, res.id_token, o.now + res.expires_in⟩) := by
  constructor
  · intro hn
    simp [refresh_token, hres, hn, load_after_save]
  · intro nrt hn
    simp [refresh_token, hres, hn, load_after_save]

/-- Witness for C3: one refresh response without a refresh token and one
with a rotated refresh token, against a concrete stored record. -/
theorem refresh_token_rotation_witness :
    load_cached_token ⟨some "/tmp/token.json"⟩
        (refresh_token ⟨"id", "secret"⟩ ⟨"r1", "a1", "i1", 90⟩
          ⟨some "/tmp/token.json"⟩ ⟨100, "/", some ⟨"a2", "i2", none, 3600⟩, none⟩
          ⟨.token ⟨"r1", "a1", "i1", 90⟩, none, []⟩).2.1 =
      some ⟨"r1", "a2", "i2", 3700⟩ ∧
    load_cached_token ⟨some "/tmp/token.json"⟩
        (refresh_token ⟨"id", "secret"⟩ ⟨"r1", "a1", "i1", 90⟩
          ⟨some "/tmp/token.json"⟩
          ⟨100, "/", some ⟨"a2", "i2", some "r2", 3600⟩, none⟩
          ⟨.token ⟨"r1", "a1", "i1", 90⟩, none, []⟩).2.1 =
      some ⟨"r2", "a2", "i2", 3700⟩ :=
  ⟨(refresh_token_rotation ⟨"id", "secret"⟩ ⟨"r1", "a1", "i1", 90⟩
      ⟨some "/tmp/token.json"⟩ ⟨100, "/", some ⟨"a2", "i2", none, 3600⟩, none⟩
      ⟨.token ⟨"r1", "a1", "i1", 90⟩, none, []⟩ ⟨"a2", "i2", none, 3600⟩
      (by rfl)).1 (by rfl),
   (refresh_token_rotation ⟨"id", "secret"⟩ ⟨"r1", "a1", "i1", 90⟩
      ⟨some "/tmp/token.json"⟩ ⟨100, "/", some ⟨"a2", "i2", some "r2", 3600⟩, none⟩
      ⟨.token ⟨"r1", "a1", "i1", 90⟩, none, []⟩ ⟨"a2", "i2", some "r2", 3600⟩
      (by rfl)).2 "r2" (by rfl)⟩

/-- C4: with no cached token, a full login whose code-exchange response
carries no refresh token returns the response's tokens with expiry
`now + expires_in`, leaves the store exactly as it was, and performs no
store write (the trace holds only the login and the exchange). -/
theorem get_token_login_without_refresh_token (creds : Creds) (env : Env)
    (o : Oracle) (st : Store) (res : TokenResponse) (c : String)
    (hnocache : load_cached_token env st = none)
    (hcap : (capture_auth_code o.requestUrl).1 = .ok c)
    (hres : o.codeResponse = some res)
    (hnort : res.refresh_token = none) :
    get_token creds env o st =
      (.ok ⟨res.access_token, res.id_token, o.now + res.expires_in⟩, st,
       [.browserLogin, .codeExchangeCall]) := by
  simp [get_token, hnocache, perform_login, hcap, hres, hnort]

/-- Witness for C4 at a concrete code-exchange response without a
refresh token. -/
theorem get_token_login_without_refresh_token_witness :
    get_token ⟨"id", "secret"⟩ ⟨none⟩
        ⟨50, "/?code=abc", none, some ⟨"a1", "i1", none, 3600⟩⟩
        ⟨.absent, none, []⟩ =
      (.ok ⟨"a1", "i1", 3650⟩, ⟨.absent, none, []⟩,
       [.browserLogin, .codeExchangeCall]) :=
  get_token_login_without_refresh_token ⟨"id", "secret"⟩ ⟨none⟩
    ⟨50, "/?code=abc", none, some ⟨"a1", "i1", none, 3600⟩⟩
    ⟨.absent, none, []⟩ ⟨"a1", "i1", none, 3600⟩ "abc" (by rfl) (by rfl)
    (by rfl) (by rfl)

/-- C5: for a stored record with expiry in the past, a failing refresh
exchange makes `get_token` return the fatal exchange error, with the
store left unmodified (the trace holds only the refresh call, no write). -/
theorem get_token_refresh_failure_no_write (creds : Creds) (env : Env)
    (o : Oracle) (st : Store) (saved : SavedToken)
    (hload : load_cached_token env st = some saved)
    (hpast : saved.token_expiry < o.now)
    (hfail : o.refreshResponse = none) :
    get_token creds env o st = (.error .exchangeFailure, st, [.refreshCall]) := by
  have hlt : ¬ (o.now + 60 < saved.token_expiry) := by omega
  simp [get_token, hload, hlt, refresh_token, hfail]

/-- Witness for C5: record expired 10 seconds ago, refresh exchange
fails. -/
theorem get_token_refresh_failure_no_write_witness :
    get_token ⟨"id", "secret"⟩ ⟨some "/tmp/token.json"⟩ ⟨100, "/", none, none⟩
        ⟨.token ⟨"r1", "a1", "i1", 90⟩, none, []⟩ =
      (.error .exchangeFailure, ⟨.token ⟨"r1", "a1", "i1", 90⟩, none, []⟩,
       [.refreshCall]) :=
  get_token_refresh_failure_no_write ⟨"id", "secret"⟩ ⟨some "/tmp/token.json"⟩
    ⟨100, "/", none, none⟩ ⟨.token ⟨"r1", "a1", "i1", 90⟩, none, []⟩
    ⟨"r1", "a1", "i1", 90⟩ (by rfl) (by decide) (by rfl)

/-- C6: the store key used by `save_token` resolves to the email decoded
from the identity token's middle base64url segment, and to `"default"`
on any malformed token (wrong segment count, invalid base64, invalid
JSON or missing email); and a load after a save reads from the very key
the save persisted as the hint, returning the saved record. -/
theorem store_key_resolution_round_trip :
    (∀ (tok hd p sg email : String),
        splitChar '.' tok = [hd, p, sg] →
        (base64urlDecode p).bind jsonEmail = some email →
        save_user tok = email) ∧
    (∀ (tok hd p sg : String),
        splitChar '.' tok = [hd, p, sg] →
        (base64urlDecode p).bind jsonEmail = none →
        save_user tok = "default") ∧
    (∀ tok : String, (splitChar '.' tok).length ≠ 3 →
        save_user tok = "default") ∧
    (∀ (env : Env) (st : Store) (t : SavedToken),
        load_cached_token env (save_token env st t).1 = some t ∧
        (env.tokenPathVar = none →
          (save_token env st t).1.hintFile = some (save_user t.id_token))) := by
  refine ⟨?_, ?_, ?_, ?_⟩
  · intro tok hd p sg email hsplit hdec
    simp [save_user, extract_email_from_id_token, hsplit, hdec]
  · intro tok hd p sg hsplit hdec
    simp [save_user, extract_email_from_id_token, hsplit, hdec]
  · intro tok hlen
    simp [save_user, extract_email_from_id_token, hlen]
  · intro env st t
    refine ⟨load_after_save env st t, fun henv => ?_⟩
    simp [save_token, henv]

/-- Witness for C6: a well-formed identity token resolves to its email,
three malformed shapes resolve to `"default"`, and a keyring-mode save
followed by a load round-trips through the persisted hint key. -/
theorem store_key_resolution_round_trip_witness :
    save_user "hdr.eyJlbWFpbCI6InVzZXJAZXhhbXBsZS5jb20ifQ.sig" =
      "user@example.com" ∧
    save_user "not-a-jwt" = "default" ∧
    save_user "a.!!.c" = "default" ∧
    save_user "a.eyJzdWIiOiIxMjMifQ.c" = "default" ∧
    load_cached_token ⟨none⟩
        (save_token ⟨none⟩ ⟨.absent, none, []⟩
          ⟨"R", "A", "hdr.eyJlbWFpbCI6InVzZXJAZXhhbXBsZS5jb20ifQ.sig", 100⟩).1 =
      some ⟨"R", "A", "hdr.eyJlbWFpbCI6InVzZXJAZXhhbXBsZS5jb20ifQ.sig", 100⟩ ∧
    (save_token ⟨none⟩ ⟨.absent, none, []⟩
        ⟨"R", "A", "hdr.eyJlbWFpbCI6InVzZXJAZXhhbXBsZS5jb20ifQ.sig", 100⟩).1.hintFile =
      some "user@example.com" :=
  ⟨store_key_resolution_round_trip.1 _ "hdr"
      "eyJlbWFpbCI6InVzZXJAZXhhbXBsZS5jb20ifQ" "sig" _ (by rfl) (by rfl),
   store_key_resolution_round_trip.2.2.1 "not-a-jwt" (by decide),
   store_key_resolution_round_trip.2.1 _ "a" "!!" "c" (by rfl) (by rfl),
   store_key_resolution_round_trip.2.1 _ "a" "eyJzdWIiOiIxMjMifQ" "c"
     (by rfl) (by rfl),
   (store_key_resolution_round_trip.2.2.2 ⟨none⟩ ⟨.absent, none, []⟩ _).1,
   (store_key_resolution_round_trip.2.2.2 ⟨none⟩ ⟨.absent, none, []⟩ _).2 rfl⟩

/-- C7 counterexample: with the override path configured, `delete_token`
still operates on the platform credential store — here it removes the
keyring entry while leaving the override file's token untouched — so it
is not the case that all three store operations target the file. -/
theorem delete_token_override_counterexample :
    delete_token ⟨some "/tmp/token.json"⟩
        ⟨.token ⟨"r", "a", "i", 100⟩, some "default",
         [("default", .token ⟨"r", "a", "i", 100⟩)]⟩ =
      .ok ⟨.token ⟨"r", "a", "i", 100⟩, some "default", []⟩ := by rfl

/-- C7 amended: with the override path configured, `load` and `save`
target that file (save touches neither the hint file nor the keyring),
but `delete` behaves exactly as without the override: it targets the
credential store under the cached hint and never touches the file. -/
theorem store_override_file_ops (env : Env) (st : Store) (t : SavedToken)
    (path : String) (henv : env.tokenPathVar = some path) :
    (load_cached_token env st =
      match st.file with
      | .token t0 => some t0
      | _ => none) ∧
    ((save_token env st t).1 = { st with file := .token t } ∧
     (save_token env st t).2 = [.writeStore t]) ∧
    delete_token env st = delete_token ⟨none⟩ st ∧
    (∀ st2 : Store, delete_token env st = .ok st2 →
      st2.file = st.file ∧ st2.hintFile = st.hintFile ∧
      st2.keyring = kvRemove st.keyring (st.hintFile.getD "default")) := by
  refine ⟨?_, ?_, rfl, ?_⟩
  · simp [load_cached_token, henv]
  · simp [save_token, henv]
  · intro st2 hdel
    simp only [delete_token] at hdel
    cases hk : kvLookup st.keyring (st.hintFile.getD "default") with
    | absent => rw [hk] at hdel; exact absurd hdel (by simp)
    | corrupt =>
        rw [hk] at hdel
        injection hdel with h
        subst h
        exact ⟨rfl, rfl, rfl⟩
    | token t0 =>
        rw [hk] at hdel
        injection hdel with h
        subst h
        exact ⟨rfl, rfl, rfl⟩

/-- Witness for C7's amended claim at a concrete override environment
and populated store. -/
theorem store_override_file_ops_witness :
    (load_cached_token ⟨some "/tmp/token.json"⟩
        ⟨.token ⟨"r", "a", "i", 100⟩, some "default",
         [("default", .corrupt)]⟩ =
      match (StoreCell.token ⟨"r", "a", "i", 100⟩ : StoreCell) with
      | .token t0 => some t0
      | _ => none) ∧
    ((save_token ⟨some "/tmp/token.json"⟩
        ⟨.token ⟨"r", "a", "i", 100⟩, some "default", [("default", .corrupt)]⟩
        ⟨"r2", "a2", "i2", 200⟩).1 =
      { (⟨.token ⟨"r", "a", "i", 100⟩, some "default",
          [("default", .corrupt)]⟩ : Store) with
          file := .token ⟨"r2", "a2", "i2", 200⟩ } ∧
     (save_token ⟨some "/tmp/token.json"⟩
        ⟨.token ⟨"r", "a", "i", 100⟩, some "default", [("default", .corrupt)]⟩
        ⟨"r2", "a2", "i2", 200⟩).2 = [.writeStore ⟨"r2", "a2", "i2", 200⟩]) ∧
    delete_token ⟨some "/tmp/token.json"⟩
        ⟨.token ⟨"r", "a", "i", 100⟩, some "default", [("default", .corrupt)]⟩ =
      delete_token ⟨none⟩
        ⟨.token ⟨"r", "a", "i", 100⟩, some "default", [("default", .corrupt)]⟩ ∧
    (∀ st2 : Store,
      delete_token ⟨some "/tmp/token.json"⟩
          ⟨.token ⟨"r", "a", "i", 100⟩, some "default",
           [("default", .corrupt)]⟩ = .ok st2 →
      st2.file = .token ⟨"r", "a", "i", 100⟩ ∧ st2.hintFile = some "default" ∧
      st2.keyring = kvRemove [("default", .corrupt)] "default") :=
  store_override_file_ops ⟨some "/tmp/token.json"⟩
    ⟨.token ⟨"r", "a", "i", 100⟩, some "default", [("default", .corrupt)]⟩
    ⟨"r2", "a2", "i2", 200⟩ "/tmp/token.json" rfl

/-- C8 counterexample: with the override path configured, `save_token`
writes the token payload without deriving or persisting any identity
hint — the trace is a single payload write and the hint file stays
empty — so the hint is not persisted before the payload on every save. -/
theorem save_override_no_hint_counterexample :
    save_token ⟨some "/tmp/token.json"⟩ ⟨.absent, none, []⟩
        ⟨"r", "a", "hdr.eyJlbWFpbCI6InVzZXJAZXhhbXBsZS5jb20ifQ.sig", 100⟩ =
      (⟨.token ⟨"r", "a", "hdr.eyJlbWFpbCI6InVzZXJAZXhhbXBsZS5jb20ifQ.sig", 100⟩,
        none, []⟩,
       [.writeStore
          ⟨"r", "a", "hdr.eyJlbWFpbCI6InVzZXJAZXhhbXBsZS5jb20ifQ.sig", 100⟩]) := by
  rfl

/-- C8 amended: in credential-store mode (no override path), every save
derives the identity hint from the identity token and persists it before
the token payload, and any decode failure falls back to `"default"`
while the save still succeeds. -/
theorem save_keyring_hint_before_payload (env : Env) (st : Store)
    (t : SavedToken) (henv : env.tokenPathVar = none) :
    (save_token env st t).2 =
      [.writeHintFile (save_user t.id_token), .writeStore t] ∧
    (save_token env st t).1.hintFile = some (save_user t.id_token) ∧
    (extract_email_from_id_token t.id_token = none →
      save_user t.id_token = "default") := by
  exact ⟨by simp [save_token, henv], by simp [save_token, henv],
         fun h => by simp [save_user, h]⟩

/-- Witness for C8's amended claim: a save of a record whose identity
token does not decode writes the `"default"` hint first, then the
payload. -/
theorem save_keyring_hint_before_payload_witness :
    (save_token ⟨none⟩ ⟨.absent, none, []⟩ ⟨"r", "a", "zzz", 100⟩).2 =
      [.writeHintFile (save_user "zzz"), .writeStore ⟨"r", "a", "zzz", 100⟩] ∧
    (save_token ⟨none⟩ ⟨.absent, none, []⟩
        ⟨"r", "a", "zzz", 100⟩).1.hintFile = some (save_user "zzz") ∧
    (extract_email_from_id_token "zzz" = none → save_user "zzz" = "default") :=
  save_keyring_hint_before_payload ⟨none⟩ ⟨.absent, none, []⟩
    ⟨"r", "a", "zzz", 100⟩ rfl

/-- The store cell `load_cached_token` reads: the override file when the
path is configured, otherwise the keyring entry under the cached hint
(defaulting to `"default"`). -/
def loaded_cell (env : Env) (st : Store) : StoreCell :=
  match env.tokenPathVar with
  | some _ => st.file
  | none => kvLookup st.keyring (st.hintFile.getD "default")

/-- C9: a load that finds no entry, or an entry that fails to decode,
returns no token (an empty optional), never an error — missing and
corrupt cache read identically. -/
theorem load_missing_or_corrupt_is_none (env : Env) (st : Store)
    (h : loaded_cell env st = .absent ∨ loaded_cell env st = .corrupt) :
    load_cached_token env st = none := by
  cases henv : env.tokenPathVar with
  | some p =>
      simp [loaded_cell, henv] at h
      rcases h with h | h <;> simp [load_cached_token, henv, h]
  | none =>
      simp [loaded_cell, henv] at h
      rcases h with h | h <;> simp [load_cached_token, henv, h]

/-- Witness for C9: a corrupt keyring entry under the cached hint and an
absent override file both load as `none`. -/
theorem load_missing_or_corrupt_is_none_witness :
    load_cached_token ⟨none⟩ ⟨.absent, some "u@e", [("u@e", .corrupt)]⟩ =
      none ∧
    load_cached_token ⟨some "/tmp/token.json"⟩ ⟨.absent, none, []⟩ = none :=
  ⟨load_missing_or_corrupt_is_none ⟨none⟩
      ⟨.absent, some "u@e", [("u@e", .corrupt)]⟩ (Or.inr (by rfl)),
   load_missing_or_corrupt_is_none ⟨some "/tmp/token.json"⟩
      ⟨.absent, none, []⟩ (Or.inl (by rfl))⟩

/-- C10: when the captured redirect request's query holds no `code`
parameter, `capture_auth_code` returns an error with no HTTP response
sent back to the browser; the confirmation response is sent exactly on
the success path, after the code has been extracted. -/
theorem capture_missing_code_no_response (requestUrl : String)
    (hnone : hashMapGet (request_params requestUrl) "code" = none) :
    capture_auth_code requestUrl = (.error .captureFailure, false) ∧
    (∀ (u c : String), (capture_auth_code u).1 = .ok c →
      (capture_auth_code u).2 = true) := by
  constructor
  · simp [capture_auth_code, hnone]
  · intro u c h
    cases hg : hashMapGet (request_params u) "code" with
    | none => simp [capture_auth_code, hg] at h
    | some v => simp [capture_auth_code, hg]

/-- Witness for C10: a redirect with only a `state` parameter yields the
error and no response; a redirect carrying `code` gets the response. -/
theorem capture_missing_code_no_response_witness :
    capture_auth_code "/?state=xyz" = (.error .captureFailure, false) ∧
    (capture_auth_code "/?code=abc").2 = true :=
  ⟨(capture_missing_code_no_response "/?state=xyz" (by rfl)).1,
   (capture_missing_code_no_response "/?state=xyz" (by rfl)).2 "/?code=abc"
     "abc" (by rfl)⟩
